import Mathlib

/-
Verification of the malva price-tracking / RSI-signal engine.

The definitions below are a shallow embedding of the TypeScript sources:
  - config/assets.ts          (SOLANA_ASSETS, TIME_INTERVALS)
  - services/price-service.ts (PriceService: cache, OHLC aggregation, getOHLCData)
  - services/rsi-service.ts   (RSIService: calculateRSI, getPortfolioSignals,
                               RSI_THRESHOLDS)
  - utils/payment-gated-tool.ts and utils/x402-payment-handler.ts
                              (registerPaymentGatedTool, TOOL_PRICING)

Numbers are modelled as rationals (prices, RSI values) and naturals
(timestamps in milliseconds, counts).  JavaScript `number | null` becomes
`Option` and functions that can `throw` return `Except ServiceError`.
-/

set_option maxHeartbeats 1000000

namespace Malva

/-- Asset category, the closed set of values of the `category` string field
used by `config/assets.ts` and `RSI_THRESHOLDS`. -/
inductive AssetCategory where
  | wrappedBtc   -- "wrapped-btc"
  | rwaStocks    -- "rwa-stocks"
  | gold         -- "gold"
deriving DecidableEq, Repr

/-- Time interval keys of `TIME_INTERVALS` in `config/assets.ts`. -/
inductive TimeInterval where
  | i1s | i1m | i5m | i1h | i1w | i1Mo
deriving DecidableEq, Repr

/-- Entry of the `TIME_INTERVALS` table: display name and duration in ms. -/
structure IntervalInfo where
  name : String
  duration : ℕ
deriving DecidableEq, Repr

/-- The `TIME_INTERVALS` table of `config/assets.ts`. -/
def TIME_INTERVALS : TimeInterval → IntervalInfo
  | .i1s => ⟨"1 Second", 1000⟩
  | .i1m => ⟨"1 Minute", 60 * 1000⟩
  | .i5m => ⟨"5 Minutes", 5 * 60 * 1000⟩
  | .i1h => ⟨"1 Hour", 60 * 60 * 1000⟩
  | .i1w => ⟨"1 Week", 7 * 24 * 60 * 60 * 1000⟩
  | .i1Mo => ⟨"1 Month", 30 * 24 * 60 * 60 * 1000⟩

/-- OHLC candle as stored by `PriceService` (interface `OHLCCandle`). -/
structure OHLCCandle where
  timestamp : ℕ
  open_ : ℚ
  high : ℚ
  low : ℚ
  close : ℚ
  volume : Option ℚ
deriving DecidableEq, Repr

/-- Per-category RSI thresholds (interface `RSIThresholds` in types/rsi.ts). -/
structure RSIThresholds where
  period : ℕ
  oversold : ℚ
  overbought : ℚ
  timeframe : TimeInterval
  stopLoss : ℚ
  takeProfit : ℚ
deriving DecidableEq, Repr

/-- The `RSI_THRESHOLDS` table of `services/rsi-service.ts` (keys
wrapped-btc / rwa-stocks / gold). -/
def RSI_THRESHOLDS : AssetCategory → RSIThresholds
  | .wrappedBtc => ⟨14, 30, 70, .i1h, 3/100, 5/100⟩
  | .rwaStocks => ⟨14, 35, 65, .i5m, 25/1000, 4/100⟩
  | .gold => ⟨21, 25, 75, .i1h, 15/1000, 3/100⟩

/- ------------------------------------------------------------------ -/
/- RSI engine: `RSIService.calculateRSI`                               -/
/- ------------------------------------------------------------------ -/

/-- Close-to-close deltas: `candles[i].close - candles[i-1].close` for
`i = 1 .. len-1` (step 1 of `calculateRSI`). -/
def closeChanges : List ℚ → List ℚ
  | [] => []
  | [_] => []
  | a :: b :: rest => (b - a) :: closeChanges (b :: rest)

/-- Gain component of one delta: `change > 0 ? change : 0`. -/
def gainOf (change : ℚ) : ℚ := if 0 < change then change else 0

/-- Loss component of one delta: `change < 0 ? Math.abs(change) : 0`. -/
def lossOf (change : ℚ) : ℚ := if change < 0 then |change| else 0

/-- RSI value from the current average gain/loss:
`avgLoss === 0 ? 100 : 100 - (100 / (1 + avgGain / avgLoss))`
(the divide-by-zero convention of `calculateRSI`). -/
def wilderRSIValue (avgGain avgLoss : ℚ) : ℚ :=
  if avgLoss = 0 then 100 else 100 - 100 / (1 + avgGain / avgLoss)

/-- The smoothing loop of `calculateRSI` (step 3): each iteration updates
`avg = (avg * (period - 1) + newValue) / period` for the gain and loss
averages and emits the RSI value computed from the updated averages.
The list argument pairs `gains[i]` with `losses[i]` for `i ≥ period`. -/
def wilderLoop (period : ℕ) : ℚ → ℚ → List (ℚ × ℚ) → List (Option ℚ)
  | _, _, [] => []
  | avgGain, avgLoss, gl :: rest =>
    let avgGain2 := (avgGain * ((period : ℚ) - 1) + gl.1) / (period : ℚ)
    let avgLoss2 := (avgLoss * ((period : ℚ) - 1) + gl.2) / (period : ℚ)
    some (wilderRSIValue avgGain2 avgLoss2) :: wilderLoop period avgGain2 avgLoss2 rest

/-- The `gains` local of `calculateRSI`. -/
def rsiGains (candles : List OHLCCandle) : List ℚ :=
  (closeChanges (candles.map OHLCCandle.close)).map gainOf

/-- The `losses` local of `calculateRSI`. -/
def rsiLosses (candles : List OHLCCandle) : List ℚ :=
  (closeChanges (candles.map OHLCCandle.close)).map lossOf

/-- The seed `avgGain` of `calculateRSI` (simple mean of the first
`period` gains). -/
def firstAvgGain (candles : List OHLCCandle) (period : ℕ) : ℚ :=
  ((rsiGains candles).take period).sum / (period : ℚ)

/-- The seed `avgLoss` of `calculateRSI` (simple mean of the first
`period` losses). -/
def firstAvgLoss (candles : List OHLCCandle) (period : ℕ) : ℚ :=
  ((rsiLosses candles).take period).sum / (period : ℚ)

/-- Function `RSIService.calculateRSI(candles, period)`.  Output is aligned 1:1 with
the input: positions `0 .. period-1` are `none` (`null` in the source), the
value at `period` is seeded from the simple averages and later positions
come from the Wilder smoothing loop.  With fewer than `period + 1` candles
the source logs a warning and returns `candles.map(() => null)` — it does
not throw. -/
def calculateRSI (candles : List OHLCCandle) (period : ℕ) : List (Option ℚ) :=
  if candles.length < period + 1 then candles.map (fun _ => none)
  else if (closeChanges (candles.map OHLCCandle.close)).length < period then
    List.replicate candles.length none
  else
    List.replicate period none
      ++ some (wilderRSIValue (firstAvgGain candles period) (firstAvgLoss candles period))
        :: wilderLoop period (firstAvgGain candles period) (firstAvgLoss candles period)
            (((rsiGains candles).drop period).zip ((rsiLosses candles).drop period))

/- ------------------------------------------------------------------ -/
/- Candle aggregator: `PriceService.updateOHLCCandles`                 -/
/- ------------------------------------------------------------------ -/

/-- Bucket alignment of `updateOHLCCandles`:
`Math.floor(timestamp / intervalDuration) * intervalDuration`. -/
def bucketStart (timestamp intervalDuration : ℕ) : ℕ :=
  timestamp / intervalDuration * intervalDuration

/-- A freshly created candle: `open = high = low = close = price`,
`volume: 0`. -/
def freshCandle (ts : ℕ) (price : ℚ) : OHLCCandle :=
  ⟨ts, price, price, price, price, some 0⟩

/-- In-place mutation of the candle found by
`candles.find(c => c.timestamp === currentCandleTime)`: the first candle
whose timestamp equals the bucket gets
`high = max(high, price)`, `low = min(low, price)`, `close = price`;
`open` and `timestamp` are left untouched. -/
def updateFirstMatch (bucket : ℕ) (price : ℚ) : List OHLCCandle → List OHLCCandle
  | [] => []
  | c :: cs =>
    if c.timestamp = bucket then
      { c with high := max c.high price, low := min c.low price, close := price } :: cs
    else c :: updateFirstMatch bucket price cs

/-- The per-interval body of `updateOHLCCandles`: find-or-create the candle
of the current bucket; on creation push it at the end and, if the series
now exceeds `maxCandlesPerInterval`, shift off the first (oldest) candle. -/
def updateIntervalCandles (maxCandles intervalDuration : ℕ) (price : ℚ) (timestamp : ℕ)
    (candles : List OHLCCandle) : List OHLCCandle :=
  let bucket := bucketStart timestamp intervalDuration
  if candles.any (fun c => c.timestamp = bucket) then
    updateFirstMatch bucket price candles
  else
    let pushed := candles ++ [freshCandle bucket price]
    if maxCandles < pushed.length then pushed.drop 1 else pushed

/-- Ingestion of a sequence of price observations `(price, timestamp)` into
one (instrument, interval) series, i.e. the per-interval effect of feeding
the observations of the poller through `updateOHLCCandles` in order. -/
def ingestObservations (maxCandles intervalDuration : ℕ) (obs : List (ℚ × ℕ))
    (candles : List OHLCCandle) : List OHLCCandle :=
  obs.foldl (fun cs o => updateIntervalCandles maxCandles intervalDuration o.1 o.2 cs) candles

/-- The OHLC store of `PriceService`:
`Map<mintAddress, Map<interval, OHLCCandle[]>>`, modelled as a total
function (a missing entry is the empty series). -/
abbrev Storage := String → TimeInterval → List OHLCCandle

/-- Function `PriceService.updateOHLCCandles(mintAddress, price, timestamp)`:
updates the series of every supported interval for the given mint. -/
def updateOHLCCandles (maxCandles : ℕ) (storage : Storage) (mintAddress : String)
    (price : ℚ) (timestamp : ℕ) : Storage :=
  fun m i =>
    if m = mintAddress then
      updateIntervalCandles maxCandles (TIME_INTERVALS i).duration price timestamp (storage m i)
    else storage m i

/- ------------------------------------------------------------------ -/
/- Instrument registry: `config/assets.ts`                             -/
/- ------------------------------------------------------------------ -/

/-- Interface `SolanaAsset`. -/
structure SolanaAsset where
  name : String
  symbol : String
  mintAddress : String
  category : AssetCategory
  description : String
deriving DecidableEq, Repr

/-- The `SOLANA_ASSETS` catalog of `config/assets.ts`. -/
def SOLANA_ASSETS : List SolanaAsset := [
  ⟨"Wrapped Bitcoin (Portal)", "WBTC", "3NZ9JMVBmGAqocybic2c7LQCJScmgsAZ6vQqTDzcqmJh",
    .wrappedBtc, "Wrapped Bitcoin on Solana via Portal Bridge"⟩,
  ⟨"Coinbase Wrapped BTC", "cbBTC", "cbbtcf3aa214zXHbiAZQwf4122FBYbraNdFqgw4iMij",
    .wrappedBtc, "Coinbase Wrapped Bitcoin on Solana"⟩,
  ⟨"Zeus Bitcoin", "zBTC", "zBTCug3er3tLyffELcvDNrKkCymbPWysGcWihESYfLg",
    .wrappedBtc, "Bitcoin on Solana via Zeus Network - permissionless Bitcoin bridge"⟩,
  ⟨"Tesla xStock", "TSLAx", "XsDoVfqeBukxuZHWhdvWHBhgEHjGNst4MLodqsJHzoB",
    .rwaStocks, "Real World Asset - Tokenized Tesla stock on Solana via xStocks"⟩,
  ⟨"Apple xStock", "AAPLx", "XsbEhLAtcf6HdfpFZ5xEMdqW8nfAvcsP5bdudRLJzJp",
    .rwaStocks, "Real World Asset - Tokenized Apple stock on Solana via xStocks"⟩,
  ⟨"Microsoft xStock", "MSFTx", "XspzcW1PRtgf6Wj92HCiZdjzKCyFekVD8P5Ueh3dRMX",
    .rwaStocks, "Real World Asset - Tokenized Microsoft stock on Solana via xStocks"⟩,
  ⟨"Amazon xStock", "AMZNx", "Xs3eBt7uRfJX8QUs4suhyU8p2M6DoUDrJyWBa8LLZsg",
    .rwaStocks, "Real World Asset - Tokenized Amazon stock on Solana via xStocks"⟩,
  ⟨"Alphabet xStock", "GOOGLx", "XsCPL9dNWBMvFtTmwcCA5v3xWPSMEBCszbQdiLLq6aN",
    .rwaStocks, "Real World Asset - Tokenized Alphabet/Google stock on Solana via xStocks"⟩,
  ⟨"Netflix xStock", "NFLXx", "XsEH7wWfJJu2ZT3UCFeVfALnVA6CP5ur7Ee11KmzVpL",
    .rwaStocks, "Real World Asset - Tokenized Netflix stock on Solana via xStocks"⟩,
  ⟨"Paxos Gold", "PAXG", "C6oFsE8nXRDThzrMEQ5SxaNFGKoyyfWDDVPw37JKvPTe",
    .gold, "Physical gold-backed token (1 PAXG = 1 troy oz of gold)"⟩,
  ⟨"Tether Gold", "XAUT", "AymATz4TCL9sWNEEV9Kvyz45CHVhDZ6kUgjTJPzLpU9P",
    .gold, "Physical gold-backed token by Tether (1 XAUt = 1 troy oz of gold)"⟩]

/- ------------------------------------------------------------------ -/
/- Quote fetch + cache and `getOHLCData`: `PriceService`               -/
/- ------------------------------------------------------------------ -/

/-- Error taxonomy of the operations modelled here.  In the source these
are distinguished by the thrown `Error` message ("Asset not found: ...",
"No OHLC data available ...", "Unable to fetch real-time price ..."). -/
inductive ServiceError where
  | assetNotFound (assetId : String)
  | insufficientData (symbol : String)
  | upstreamFetch (symbol : String)
deriving DecidableEq, Repr

/-- Interface `PriceData` (fields produced by `getAssetPrice`; `volume24h`
is always `undefined` with the v3 API). -/
structure PriceData where
  asset : String
  symbol : String
  category : AssetCategory
  price : ℚ
  priceChange24h : Option ℚ
  volume24h : Option ℚ
  timestamp : ℕ
  source : String
deriving DecidableEq, Repr

/-- Interface `CacheEntry<PriceData>` of the memoization cache. -/
structure CacheEntry where
  data : PriceData
  timestamp : ℕ
deriving DecidableEq, Repr

/-- The `PriceService.cache` JS `Map`, modelled as an association list in
insertion order (JS `Map.keys()` iterates in insertion order). -/
abbrev Cache := List (String × CacheEntry)

/-- JS `cache.get(key)`. -/
def cacheGet (cache : Cache) (key : String) : Option CacheEntry :=
  (cache.find? (fun e => e.1 == key)).map Prod.snd

/-- JS `cache.set(key, value)`: replaces the value of an existing key in
place (keeping its insertion position), otherwise appends. -/
def cacheSetEntry : Cache → String → CacheEntry → Cache
  | [], key, v => [(key, v)]
  | e :: es, key, v =>
    if e.1 = key then (key, v) :: es else e :: cacheSetEntry es key v

/-- Constant `MAX_CACHE_SIZE` of `PriceService`. -/
def MAX_CACHE_SIZE : ℕ := 100

/-- Mutable state of `PriceService` relevant to the modelled operations:
the memoization cache and the OHLC store. -/
structure PriceState where
  cache : Cache
  ohlcStorage : Storage

/-- A usable quote from the Jupiter price feed: `usdPrice` plus the
optional `priceChange24h` field of the response.  `none` at the call site
stands for any failed fetch (network error, non-ok status, missing or
falsy `usdPrice`) — every such case makes `getAssetPrice` throw. -/
structure FeedQuote where
  usdPrice : ℚ
  priceChange24h : Option ℚ
deriving DecidableEq, Repr

/-- Function `PriceService.calculatePriceChange24h(mintAddress, currentPrice)`:
needs at least 24 one-hour candles; compares against the open of the
candle 24 positions from the end. -/
def calculatePriceChange24h (storage : Storage) (mintAddress : String)
    (currentPrice : ℚ) : Option ℚ :=
  let hourCandles := storage mintAddress .i1h
  if hourCandles.length < 24 then none
  else
    match hourCandles.get? (hourCandles.length - 24) with
    | none => none
    | some c => some ((currentPrice - c.open_) / c.open_ * 100)

/-- The fetcher body of `getAssetPrice` plus the `fetchWithCache` epilogue:
on a usable quote it updates the OHLC store for every interval, derives
`priceChange24h`, stores the resulting `PriceData` in the cache (with
oldest-entry eviction past `MAX_CACHE_SIZE`) and returns it; on a failed
fetch it throws. -/
def getAssetPriceFetch (maxCandles : ℕ) (st : PriceState) (now : ℕ)
    (feed : Option FeedQuote) (asset : SolanaAsset) (key : String) :
    Except ServiceError (PriceData × PriceState) :=
  match feed with
  | none => .error (.upstreamFetch asset.symbol)
  | some quote =>
    let storage2 := updateOHLCCandles maxCandles st.ohlcStorage asset.mintAddress quote.usdPrice now
    let change :=
      match quote.priceChange24h with
      | some c => some c
      | none => calculatePriceChange24h storage2 asset.mintAddress quote.usdPrice
    let pd : PriceData :=
      ⟨asset.name, asset.symbol, asset.category, quote.usdPrice, change, none, now, "jupiter"⟩
    let cache2 := cacheSetEntry st.cache key ⟨pd, now⟩
    let cache3 := if MAX_CACHE_SIZE < cache2.length then cache2.drop 1 else cache2
    .ok (pd, ⟨cache3, storage2⟩)

/-- Function `PriceService.getAssetPrice(asset)` through `fetchWithCache`: a cache
entry younger than `cacheTTL` is returned as-is (no feed call, no store
update); otherwise the fetch path runs. -/
def getAssetPrice (cacheTTL maxCandles : ℕ) (st : PriceState) (now : ℕ)
    (feed : Option FeedQuote) (asset : SolanaAsset) :
    Except ServiceError (PriceData × PriceState) :=
  let key := "price_" ++ asset.mintAddress
  match cacheGet st.cache key with
  | some entry =>
    if now - entry.timestamp < cacheTTL then .ok (entry.data, st)
    else getAssetPriceFetch maxCandles st now feed asset key
  | none => getAssetPriceFetch maxCandles st now feed asset key

/-- JS `toLowerCase()` on the ASCII symbols used here (structural version
of `String.toLower`, character by character). -/
def lowerString (s : String) : String := ⟨s.data.map Char.toLower⟩

/-- The asset lookup of `getOHLCData`:
`SOLANA_ASSETS.find(a => a.mintAddress === assetId || a.symbol.toLowerCase() === assetId.toLowerCase())`. -/
def findAsset (assetId : String) : Option SolanaAsset :=
  SOLANA_ASSETS.find? (fun a => a.mintAddress == assetId || lowerString a.symbol == lowerString assetId)

/-- JS `candles.slice(-count)`: the last `count` elements, except that
`slice(-0)` is `slice(0)`, i.e. the whole array. -/
def sliceLast (candles : List OHLCCandle) (count : ℕ) : List OHLCCandle :=
  if count = 0 then candles else candles.drop (candles.length - count)

/-- Function `PriceService.getOHLCData(assetId, interval, count)`: resolve the
asset, refresh its price via `getAssetPrice` (failures propagate), then
read the stored series and fail if it is empty, else return the most
recent `count` candles.  The two storage-miss throws of the source (no map
for the mint / no series for the interval) collapse to the empty-series
check in the total-function model of the store. -/
def getOHLCData (cacheTTL maxCandles : ℕ) (st : PriceState) (now : ℕ)
    (feed : Option FeedQuote) (assetId : String) (interval : TimeInterval) (count : ℕ) :
    Except ServiceError (List OHLCCandle × PriceState) :=
  match findAsset assetId with
  | none => .error (.assetNotFound assetId)
  | some asset =>
    match getAssetPrice cacheTTL maxCandles st now feed asset with
    | .error e => .error e
    | .ok (_, st2) =>
      let candles := st2.ohlcStorage asset.mintAddress interval
      if candles.isEmpty then .error (.insufficientData asset.symbol)
      else .ok (sliceLast candles count, st2)

/- ------------------------------------------------------------------ -/
/- Portfolio aggregator: `RSIService.getPortfolioSignals`              -/
/- ------------------------------------------------------------------ -/

/-- The `action` field of a signal. -/
inductive SignalAction where
  | buy | sell | hold
deriving DecidableEq, Repr

/-- The `signal` part of `RSIAnalysisResult` read by
`getPortfolioSignals` (the other signal fields — entry price, stops,
reason — are carried through unread). -/
structure SignalInfo where
  action : SignalAction
  confidence : ℚ
deriving DecidableEq, Repr

/-- The part of interface `RSIAnalysisResult` that `getPortfolioSignals`
inspects; remaining fields of the interface (current price, rsi block,
analysis block, timestamp) are opaque payload for this operation. -/
structure RSIAnalysisResult where
  symbol : String
  category : AssetCategory
  signal : SignalInfo
deriving DecidableEq, Repr

/-- One `byCategory` bucket of the portfolio summary. -/
structure CategoryCounts where
  buy : ℕ
  sell : ℕ
  hold : ℕ
deriving DecidableEq, Repr

/-- The `summary` object of `PortfolioSignals`.  `byCategory` is a JS
dictionary with on-demand initialisation to zero counts; it is modelled
as a total function defaulting to zero counts. -/
structure PortfolioSummary where
  totalBuySignals : ℕ
  totalSellSignals : ℕ
  totalHoldSignals : ℕ
  byCategory : AssetCategory → CategoryCounts

/-- Interface `PortfolioSignals` (without the request timestamp). -/
structure PortfolioSignals where
  signals : List RSIAnalysisResult
  summary : PortfolioSummary

/-- The per-category increment of the summary: bump the bucket field
matching the action. -/
def bumpCategory (c : CategoryCounts) : SignalAction → CategoryCounts
  | .buy => { c with buy := c.buy + 1 }
  | .sell => { c with sell := c.sell + 1 }
  | .hold => { c with hold := c.hold + 1 }

/-- The summary update executed for each retained analysis: the
`if BUY / else if SELL / else` counters plus the `byCategory` bucket of
the category of the analysis. -/
def updateSummary (s : PortfolioSummary) (a : RSIAnalysisResult) : PortfolioSummary :=
  let s1 :=
    match a.signal.action with
    | .buy => { s with totalBuySignals := s.totalBuySignals + 1 }
    | .sell => { s with totalSellSignals := s.totalSellSignals + 1 }
    | .hold => { s with totalHoldSignals := s.totalHoldSignals + 1 }
  { s1 with
    byCategory := fun cat =>
      if cat = a.category then bumpCategory (s1.byCategory cat) a.signal.action
      else s1.byCategory cat }

/-- The body of the `analyses.forEach` of `getPortfolioSignals` for one
settled promise: a rejected analysis is logged and skipped; a fulfilled
one is retained iff `confidence >= minConfidence` or its action is HOLD,
in which case it is pushed and the summary updated. -/
def stepPortfolio (minConfidence : ℚ) (st : PortfolioSignals)
    (result : Except String RSIAnalysisResult) : PortfolioSignals :=
  match result with
  | .error _ => st
  | .ok a =>
    if minConfidence ≤ a.signal.confidence ∨ a.signal.action = .hold then
      { signals := st.signals ++ [a], summary := updateSummary st.summary a }
    else st

/-- The initial `signals` / `summary` accumulators of
`getPortfolioSignals`. -/
def emptyPortfolio : PortfolioSignals :=
  ⟨[], ⟨0, 0, 0, fun _ => ⟨0, 0, 0⟩⟩⟩

/-- Function `RSIService.getPortfolioSignals(assets, minConfidence)` after
`Promise.allSettled`: the input is the per-asset settled outcome of
`analyzeAsset` (fulfilled value or rejection reason), processed in
order. -/
def getPortfolioSignals (analyses : List (Except String RSIAnalysisResult))
    (minConfidence : ℚ) : PortfolioSignals :=
  analyses.foldl (stepPortfolio minConfidence) emptyPortfolio

/-- Modelled from the spec (§4.6 / §8): the retained set — every
fulfilled analysis whose confidence reaches `minConfidence` or whose
action is HOLD, in input order.  Stated for comparison with
`getPortfolioSignals`. -/
def retainedAnalyses : List (Except String RSIAnalysisResult) → ℚ → List RSIAnalysisResult
  | [], _ => []
  | .error _ :: rest, minConfidence => retainedAnalyses rest minConfidence
  | .ok a :: rest, minConfidence =>
    if minConfidence ≤ a.signal.confidence ∨ a.signal.action = .hold then
      a :: retainedAnalyses rest minConfidence
    else retainedAnalyses rest minConfidence

/-- Count of retained results with a given action. -/
def countAction (l : List RSIAnalysisResult) (act : SignalAction) : ℕ :=
  (l.filter (fun a => a.signal.action = act)).length

/-- Count of retained results with a given category and action. -/
def countCatAction (l : List RSIAnalysisResult) (cat : AssetCategory)
    (act : SignalAction) : ℕ :=
  (l.filter (fun a => a.category = cat ∧ a.signal.action = act)).length

/- ------------------------------------------------------------------ -/
/- Payment gate: `registerPaymentGatedTool` + `TOOL_PRICING`           -/
/- ------------------------------------------------------------------ -/

/-- One entry of `TOOL_PRICING`: price in USDC micro-units and a
human-readable description. -/
structure ToolPrice where
  amount : ℕ
  description : String
deriving DecidableEq, Repr

/-- The `TOOL_PRICING` table of `utils/x402-payment-handler.ts`. -/
def TOOL_PRICING : String → Option ToolPrice := fun toolName =>
  if toolName = "get-current-prices" then some ⟨10000, "Real-time asset prices"⟩
  else if toolName = "get-ohlc-data" then some ⟨20000, "OHLC candlestick data"⟩
  else if toolName = "get-interval-prices" then some ⟨20000, "Time-series price data with analytics"⟩
  else if toolName = "get-ohlc-stats" then some ⟨5000, "OHLC collection statistics"⟩
  else if toolName = "get-rsi-analysis" then some ⟨50000, "RSI trading signal analysis"⟩
  else if toolName = "get-portfolio-signals" then some ⟨100000, "Portfolio-wide trading signals"⟩
  else if toolName = "get-rsi-divergence" then some ⟨50000, "RSI divergence pattern detection"⟩
  else if toolName = "get-crypto-news" then some ⟨5000, "Latest crypto news articles"⟩
  else if toolName = "search-crypto-news" then some ⟨5000, "Search crypto news by keyword"⟩
  else if toolName = "get-asset-news" then some ⟨5000, "Asset-specific crypto news"⟩
  else if toolName = "get-news-summary" then some ⟨10000, "Aggregated news summary"⟩
  else none

/-- Interface `PaymentVerificationResult` of the x402 handler
(`requirements` is an opaque payload here). -/
structure PaymentVerificationResult where
  verified : Bool
  error : Option String
  requirements : Option String
deriving DecidableEq, Repr

/-- JS `s || d` on an optional string: `undefined` and the empty string
are falsy. -/
def jsOrString (s : Option String) (d : String) : String :=
  match s with
  | none => d
  | some v => if v = "" then d else v

/-- Outcome of one invocation of a tool registered through
`registerPaymentGatedTool`: either the wrapped handler ran and produced
its result, or the 402 payment-required error response was returned
(carrying the message, the facilitator requirements and the
`TOOL_PRICING` entry of the tool), or verification itself threw and the
500 response was returned. -/
inductive GatedOutcome (β : Type) where
  | handlerRun (result : β)
  | paymentRequired (toolName message : String) (requirements : Option String)
      (pricing : Option ToolPrice)
  | verificationFailure (details : String)
deriving DecidableEq, Repr

/-- The wrapped handler installed by `registerPaymentGatedTool`:
`requirePayment = false` skips the gate entirely; otherwise
`verifyToolPayment` runs first (its outcome — result or thrown error — is
the `verifyOutcome` argument), and only a `verified` result lets the
underlying `handler` execute. -/
def gatedToolHandler {α β : Type} (toolName : String) (requirePayment : Bool)
    (verifyOutcome : Except String PaymentVerificationResult)
    (handler : α → β) (args : α) : GatedOutcome β :=
  if requirePayment = false then .handlerRun (handler args)
  else
    match verifyOutcome with
    | .error e => .verificationFailure e
    | .ok vr =>
      if vr.verified = false then
        .paymentRequired toolName (jsOrString vr.error "Payment Required")
          vr.requirements (TOOL_PRICING toolName)
      else .handlerRun (handler args)

/-- The summary-consistency invariant of the portfolio fold: every
counter of the summary equals the corresponding count over the signals
accumulated so far. -/
def goodState (st : PortfolioSignals) : Prop :=
  st.summary.totalBuySignals = countAction st.signals .buy ∧
  st.summary.totalSellSignals = countAction st.signals .sell ∧
  st.summary.totalHoldSignals = countAction st.signals .hold ∧
  ∀ cat, st.summary.byCategory cat =
    ⟨countCatAction st.signals cat .buy,
     countCatAction st.signals cat .sell,
     countCatAction st.signals cat .hold⟩

/- ------------------------------------------------------------------ -/
/- Concrete instances used by counterexamples and witnesses            -/
/- ------------------------------------------------------------------ -/

/-- A flat candle at a given bucket with the given close. -/
def mkCandle (ts : ℕ) (c : ℚ) : OHLCCandle := ⟨ts, c, c, c, c, some 0⟩

/-- Three candles: fewer than the 15 needed for a period-14 RSI. -/
def shortCandles : List OHLCCandle :=
  [mkCandle 0 10, mkCandle 3600000 11, mkCandle 7200000 9]

/-- Fifteen candles with strictly increasing closes 1, 2, ..., 15. -/
def risingCandles : List OHLCCandle :=
  [mkCandle 0 1, mkCandle 3600000 2, mkCandle 7200000 3, mkCandle 10800000 4,
   mkCandle 14400000 5, mkCandle 18000000 6, mkCandle 21600000 7, mkCandle 25200000 8,
   mkCandle 28800000 9, mkCandle 32400000 10, mkCandle 36000000 11, mkCandle 39600000 12,
   mkCandle 43200000 13, mkCandle 46800000 14, mkCandle 50400000 15]

/-- The WBTC registry entry (first element of `SOLANA_ASSETS`). -/
def wbtcMint : String := "3NZ9JMVBmGAqocybic2c7LQCJScmgsAZ6vQqTDzcqmJh"

/-- The WBTC asset record. -/
def wbtcAsset : SolanaAsset :=
  ⟨"Wrapped Bitcoin (Portal)", "WBTC", wbtcMint,
    .wrappedBtc, "Wrapped Bitcoin on Solana via Portal Bridge"⟩

/-- A store holding one accumulated 1-hour candle for WBTC and nothing
else. -/
def demoStorageNE : Storage := fun m i =>
  if m = wbtcMint ∧ i = TimeInterval.i1h then [mkCandle 0 50] else []

/-- Service state with an empty cache but one stored WBTC candle. -/
def demoStateNE : PriceState := ⟨[], demoStorageNE⟩

/-- The empty OHLC store. -/
def emptyStorage : Storage := fun _ _ => []

/-- Service state with empty cache and empty store. -/
def demoStateEmpty : PriceState := ⟨[], emptyStorage⟩

/-- A usable feed quote: price 100, 24h change +2%. -/
def demoQuote : FeedQuote := ⟨100, some 2⟩

/-- The `PriceData` produced for WBTC from `demoQuote` at time 0. -/
def demoPD : PriceData :=
  ⟨"Wrapped Bitcoin (Portal)", "WBTC", .wrappedBtc, 100, some 2, none, 0, "jupiter"⟩

/-- The state after a successful refresh of WBTC from `demoStateEmpty`. -/
def demoSt2 : PriceState :=
  ⟨[("price_" ++ wbtcMint, ⟨demoPD, 0⟩)],
    updateOHLCCandles 1000 emptyStorage wbtcMint 100 0⟩

/-- Two adjacent one-minute candles (a series at its cap of 2). -/
def twoCandles : List OHLCCandle := [mkCandle 0 1, mkCandle 60000 2]

/- ------------------------------------------------------------------ -/
/- Theorems                                                            -/
/- ------------------------------------------------------------------ -/

/-- Claim C1 (counterexample): the gold-token entry of the Signal Detector does
not match the specified row (period 14, oversold 25, overbought 75,
stop-loss 1.5%, take-profit 3%): the RSI period in the code for gold is 21,
not 14. -/
theorem RSI_THRESHOLDS_gold_claim_false :
    ¬ ((RSI_THRESHOLDS AssetCategory.gold).period = 14 ∧
       (RSI_THRESHOLDS AssetCategory.gold).oversold = 25 ∧
       (RSI_THRESHOLDS AssetCategory.gold).overbought = 75 ∧
       (RSI_THRESHOLDS AssetCategory.gold).stopLoss = 15/1000 ∧
       (RSI_THRESHOLDS AssetCategory.gold).takeProfit = 3/100) := by
  intro h
  exact absurd h.1 (by norm_num [RSI_THRESHOLDS])

/-- Claim C1 (amended): for gold-token analyses the threshold table uses
RSI period 21 (not 14), oversold 25, overbought 75, stop-loss 1.5% and
take-profit 3%. -/
theorem RSI_THRESHOLDS_gold_values :
    (RSI_THRESHOLDS AssetCategory.gold).period = 21 ∧
    (RSI_THRESHOLDS AssetCategory.gold).oversold = 25 ∧
    (RSI_THRESHOLDS AssetCategory.gold).overbought = 75 ∧
    (RSI_THRESHOLDS AssetCategory.gold).stopLoss = 15/1000 ∧
    (RSI_THRESHOLDS AssetCategory.gold).takeProfit = 3/100 :=
  ⟨rfl, rfl, rfl, rfl, rfl⟩

/- Helper lemmas about the RSI engine. -/

theorem closeChanges_length : ∀ l : List ℚ, (closeChanges l).length = l.length - 1
  | [] => rfl
  | [_] => rfl
  | a :: b :: rest => by
    have ih := closeChanges_length (b :: rest)
    simp [closeChanges] at ih ⊢
    omega

theorem wilderLoop_length (period : ℕ) :
    ∀ (gl : List (ℚ × ℚ)) (avgGain avgLoss : ℚ),
      (wilderLoop period avgGain avgLoss gl).length = gl.length
  | [], _, _ => rfl
  | _ :: rest, a, b => by
    simp only [wilderLoop, List.length_cons]
    rw [wilderLoop_length period rest]

/-- Output length always equals input length, in every branch. -/
theorem calculateRSI_length (candles : List OHLCCandle) (period : ℕ) :
    (calculateRSI candles period).length = candles.length := by
  unfold calculateRSI
  by_cases h1 : candles.length < period + 1
  · rw [if_pos h1, List.length_map]
  · rw [if_neg h1]
    have hcc : (closeChanges (candles.map OHLCCandle.close)).length = candles.length - 1 := by
      rw [closeChanges_length, List.length_map]
    by_cases h2 : (closeChanges (candles.map OHLCCandle.close)).length < period
    · rw [if_pos h2, List.length_replicate]
    · rw [if_neg h2]
      simp only [List.length_append, List.length_replicate, List.length_cons,
        wilderLoop_length, List.length_zip, List.length_drop, List.length_map,
        rsiGains, rsiLosses, hcc]
      omega

/-- Unfolding of `calculateRSI` when enough candles are supplied. -/
theorem calculateRSI_eq_of_le (candles : List OHLCCandle) (period : ℕ)
    (h : period + 1 ≤ candles.length) :
    calculateRSI candles period =
      List.replicate period none
        ++ some (wilderRSIValue (firstAvgGain candles period) (firstAvgLoss candles period))
          :: wilderLoop period (firstAvgGain candles period) (firstAvgLoss candles period)
              (((rsiGains candles).drop period).zip ((rsiLosses candles).drop period)) := by
  have hcc : (closeChanges (candles.map OHLCCandle.close)).length = candles.length - 1 := by
    rw [closeChanges_length, List.length_map]
  unfold calculateRSI
  rw [if_neg (by omega), if_neg (by omega)]

/-- Unfolding of `calculateRSI` on insufficient input (shared helper). -/
theorem calculateRSI_short_eq (candles : List OHLCCandle) (period : ℕ)
    (h : candles.length < period + 1) :
    calculateRSI candles period = candles.map (fun _ => none) := by
  unfold calculateRSI
  rw [if_pos h]

/-- Claim C10: with fewer than `period + 1` candles, `calculateRSI` does
not raise; it returns an array of exactly the input length all of whose
entries are the explicit no-value marker. -/
theorem calculateRSI_short_all_none (candles : List OHLCCandle) (period : ℕ)
    (h : candles.length < period + 1) :
    calculateRSI candles period = candles.map (fun _ => none) :=
  calculateRSI_short_eq candles period h

/-- Claim C10 (witness): period 14 on three candles yields three nulls. -/
theorem calculateRSI_short_all_none_witness :
    calculateRSI shortCandles 14 = shortCandles.map (fun _ => none) :=
  calculateRSI_short_all_none shortCandles 14 (by decide)

/-- Claim C2 (counterexample): with 3 candles and period 14 — fewer than
`period + 1` — `calculateRSI` does not fail with an
`InsufficientDataError`: it returns the all-null array normally. -/
theorem calculateRSI_insufficient_no_failure :
    shortCandles.length < 14 + 1 ∧
    calculateRSI shortCandles 14 = [none, none, none] := by
  exact ⟨by decide, by decide⟩

/-- Claim C2 (amended): `calculateRSI` never fails.  For every candle
sequence and positive period, the returned array is degenerate (every
entry null) if and only if fewer than `period + 1` candles were supplied;
with at least `period + 1` candles the entry at index `period` is
defined. -/
theorem calculateRSI_all_none_iff (candles : List OHLCCandle) (period : ℕ)
    (hp : 1 ≤ period) :
    (∀ v ∈ calculateRSI candles period, v = none) ↔ candles.length < period + 1 := by
  constructor
  · intro hall
    by_contra hlen
    have heq := calculateRSI_eq_of_le candles period (by omega)
    have hmem : some (wilderRSIValue (firstAvgGain candles period) (firstAvgLoss candles period))
        ∈ calculateRSI candles period := by
      rw [heq]
      exact List.mem_append_right _ (List.mem_cons_self _ _)
    exact Option.some_ne_none _ (hall _ hmem)
  · intro hlen v hv
    rw [calculateRSI_short_eq candles period hlen] at hv
    rcases List.mem_map.mp hv with ⟨_, _, ha⟩
    exact ha.symm

/-- Claim C2 (witness): for the three-candle input the degenerate-output
criterion agrees with the length test. -/
theorem calculateRSI_all_none_iff_witness :
    (∀ v ∈ calculateRSI shortCandles 14, v = none) ↔ shortCandles.length < 14 + 1 :=
  calculateRSI_all_none_iff shortCandles 14 (by decide)

/- Helper lemmas for the RSI value range. -/

theorem gainOf_nonneg (c : ℚ) : 0 ≤ gainOf c := by
  unfold gainOf
  split
  · linarith
  · exact le_refl 0

theorem lossOf_nonneg (c : ℚ) : 0 ≤ lossOf c := by
  unfold lossOf
  split
  · exact abs_nonneg c
  · exact le_refl 0

theorem rsiGains_nonneg (candles : List OHLCCandle) :
    ∀ x ∈ rsiGains candles, 0 ≤ x := by
  intro x hx
  rcases List.mem_map.mp hx with ⟨c, _, rfl⟩
  exact gainOf_nonneg c

theorem rsiLosses_nonneg (candles : List OHLCCandle) :
    ∀ x ∈ rsiLosses candles, 0 ≤ x := by
  intro x hx
  rcases List.mem_map.mp hx with ⟨c, _, rfl⟩
  exact lossOf_nonneg c

theorem firstAvgGain_nonneg (candles : List OHLCCandle) (period : ℕ) :
    0 ≤ firstAvgGain candles period := by
  unfold firstAvgGain
  apply div_nonneg
  · exact List.sum_nonneg fun x hx => rsiGains_nonneg candles x (List.take_subset _ _ hx)
  · exact Nat.cast_nonneg period

theorem firstAvgLoss_nonneg (candles : List OHLCCandle) (period : ℕ) :
    0 ≤ firstAvgLoss candles period := by
  unfold firstAvgLoss
  apply div_nonneg
  · exact List.sum_nonneg fun x hx => rsiLosses_nonneg candles x (List.take_subset _ _ hx)
  · exact Nat.cast_nonneg period

theorem wilderRSIValue_bounds (a b : ℚ) (ha : 0 ≤ a) (hb : 0 ≤ b) :
    0 ≤ wilderRSIValue a b ∧ wilderRSIValue a b ≤ 100 := by
  unfold wilderRSIValue
  split
  · norm_num
  · rename_i hb0
    have hbpos : 0 < b := lt_of_le_of_ne hb (Ne.symm hb0)
    have hrs : 0 ≤ a / b := div_nonneg ha hb
    have h1 : (1 : ℚ) ≤ 1 + a / b := by linarith
    have hpos : 0 < 100 / (1 + a / b) := div_pos (by norm_num) (by linarith)
    have hle : 100 / (1 + a / b) ≤ 100 := div_le_self (by norm_num) h1
    constructor <;> linarith

theorem wilderStep_nonneg (period : ℕ) (hp : 1 ≤ period) (avg x : ℚ)
    (havg : 0 ≤ avg) (hx : 0 ≤ x) :
    0 ≤ (avg * ((period : ℚ) - 1) + x) / (period : ℚ) := by
  have h1 : (1 : ℚ) ≤ (period : ℚ) := by exact_mod_cast hp
  apply div_nonneg
  · have hnn : (0 : ℚ) ≤ (period : ℚ) - 1 := by linarith
    nlinarith
  · linarith

theorem wilderLoop_bounds (period : ℕ) (hp : 1 ≤ period) (gl : List (ℚ × ℚ)) :
    ∀ (a b : ℚ), 0 ≤ a → 0 ≤ b → (∀ x ∈ gl, 0 ≤ x.1 ∧ 0 ≤ x.2) →
      ∀ r : ℚ, some r ∈ wilderLoop period a b gl → 0 ≤ r ∧ r ≤ 100 := by
  induction gl with
  | nil =>
    intro a b _ _ _ r hr
    simp [wilderLoop] at hr
  | cons g rest ih =>
    intro a b ha hb hmem r hr
    have hg := hmem g (List.mem_cons_self _ _)
    have ha2 := wilderStep_nonneg period hp a g.1 ha hg.1
    have hb2 := wilderStep_nonneg period hp b g.2 hb hg.2
    simp only [wilderLoop, List.mem_cons] at hr
    rcases hr with heq | hmem2
    · rcases Option.some_inj.mp heq with rfl
      exact wilderRSIValue_bounds _ _ ha2 hb2
    · exact ih _ _ ha2 hb2 (fun x hx => hmem x (List.mem_cons_of_mem _ hx)) r hmem2

theorem zip_gl_nonneg (candles : List OHLCCandle) (period : ℕ) :
    ∀ x ∈ ((rsiGains candles).drop period).zip ((rsiLosses candles).drop period),
      0 ≤ x.1 ∧ 0 ≤ x.2 := by
  intro x hx
  obtain ⟨a, b⟩ := x
  have hab := List.of_mem_zip hx
  exact ⟨rsiGains_nonneg candles a (List.drop_subset _ _ hab.1),
    rsiLosses_nonneg candles b (List.drop_subset _ _ hab.2)⟩

/-- Claim C4: for every candle sequence and every positive period, the
output of `calculateRSI` has exactly the length of the input, and every defined
(non-null) output value lies in [0, 100]. -/
theorem calculateRSI_length_range (candles : List OHLCCandle) (period : ℕ)
    (hp : 1 ≤ period) :
    (calculateRSI candles period).length = candles.length ∧
    ∀ r : ℚ, some r ∈ calculateRSI candles period → 0 ≤ r ∧ r ≤ 100 := by
  refine ⟨calculateRSI_length candles period, ?_⟩
  intro r hr
  by_cases h1 : candles.length < period + 1
  · rw [calculateRSI_short_eq candles period h1] at hr
    rcases List.mem_map.mp hr with ⟨_, _, ha⟩
    exact absurd ha (Option.some_ne_none r).symm
  · rw [calculateRSI_eq_of_le candles period (by omega)] at hr
    rcases List.mem_append.mp hr with hmem | hmem
    · exact absurd (List.eq_of_mem_replicate hmem) (Option.some_ne_none r)
    · rcases List.mem_cons.mp hmem with heq | hloop
      · rcases Option.some_inj.mp heq with rfl
        exact wilderRSIValue_bounds _ _ (firstAvgGain_nonneg candles period)
          (firstAvgLoss_nonneg candles period)
      · exact wilderLoop_bounds period hp _ _ _ (firstAvgGain_nonneg candles period)
          (firstAvgLoss_nonneg candles period) (zip_gl_nonneg candles period) r hloop

/-- Claim C4 (witness): the three-candle input at period 14. -/
theorem calculateRSI_length_range_witness :
    (calculateRSI shortCandles 14).length = shortCandles.length ∧
    ∀ r : ℚ, some r ∈ calculateRSI shortCandles 14 → 0 ≤ r ∧ r ≤ 100 :=
  calculateRSI_length_range shortCandles 14 (by decide)

/- Helper lemmas for monotone inputs. -/

theorem closeChanges_pos : ∀ l : List ℚ, List.Chain' (fun a b => a < b) l →
    ∀ c ∈ closeChanges l, 0 < c
  | [], _, c, hc => by simp [closeChanges] at hc
  | [_], _, c, hc => by simp [closeChanges] at hc
  | a :: b :: rest, hch, c, hc => by
    rw [List.chain'_cons] at hch
    simp only [closeChanges, List.mem_cons] at hc
    rcases hc with rfl | hc
    · linarith [hch.1]
    · exact closeChanges_pos (b :: rest) hch.2 c hc

theorem lossOf_of_pos (c : ℚ) (hc : 0 < c) : lossOf c = 0 := by
  unfold lossOf
  rw [if_neg (by linarith)]

theorem wilderRSIValue_loss_zero (a : ℚ) : wilderRSIValue a 0 = 100 := by
  unfold wilderRSIValue
  rw [if_pos rfl]

theorem wilderLoop_loss_zero (period : ℕ) :
    ∀ (gl : List (ℚ × ℚ)), (∀ x ∈ gl, x.2 = 0) →
      ∀ (a : ℚ) (v : Option ℚ), v ∈ wilderLoop period a 0 gl → v = some 100
  | [], _, a, v, hv => by simp [wilderLoop] at hv
  | g :: rest, hz, a, v, hv => by
    have hg : g.2 = 0 := hz g (List.mem_cons_self _ _)
    simp only [wilderLoop] at hv
    rw [show (0 * ((period : ℚ) - 1) + g.2) / (period : ℚ) = 0 by simp [hg]] at hv
    simp only [List.mem_cons] at hv
    rcases hv with rfl | hv
    · rw [wilderRSIValue_loss_zero]
    · exact wilderLoop_loss_zero period rest
        (fun x hx => hz x (List.mem_cons_of_mem _ hx)) _ v hv

/-- Claim C5: on at least 15 candles with strictly increasing closes,
period-14 RSI is defined somewhere and equals exactly 100 at every defined
output position (the average loss stays 0, so the divide-by-zero
convention applies throughout). -/
theorem calculateRSI_rising_all_100 (candles : List OHLCCandle)
    (h15 : 15 ≤ candles.length)
    (hmono : List.Chain' (fun a b : ℚ => a < b) (candles.map OHLCCandle.close)) :
    some 100 ∈ calculateRSI candles 14 ∧
    ∀ r : ℚ, some r ∈ calculateRSI candles 14 → r = 100 := by
  have hlosses : ∀ x ∈ rsiLosses candles, x = 0 := by
    intro x hx
    rcases List.mem_map.mp hx with ⟨c, hc, rfl⟩
    exact lossOf_of_pos c (closeChanges_pos _ hmono c hc)
  have havgLoss : firstAvgLoss candles 14 = 0 := by
    unfold firstAvgLoss
    rw [List.sum_eq_zero (fun x hx => hlosses x (List.take_subset _ _ hx))]
    exact zero_div _
  have hz : ∀ x ∈ ((rsiGains candles).drop 14).zip ((rsiLosses candles).drop 14),
      x.2 = 0 := by
    intro x hx
    obtain ⟨a, b⟩ := x
    exact hlosses b (List.drop_subset _ _ (List.of_mem_zip hx).2)
  have heq := calculateRSI_eq_of_le candles 14 (by omega)
  rw [heq, havgLoss]
  constructor
  · rw [wilderRSIValue_loss_zero]
    exact List.mem_append_right _ (List.mem_cons_self _ _)
  · intro r hr
    rcases List.mem_append.mp hr with hmem | hmem
    · exact absurd (List.eq_of_mem_replicate hmem) (Option.some_ne_none r)
    · rcases List.mem_cons.mp hmem with heq2 | hloop
      · rw [wilderRSIValue_loss_zero] at heq2
        exact Option.some_inj.mp heq2
      · exact Option.some_inj.mp (wilderLoop_loss_zero 14 _ hz _ _ hloop)

/-- Claim C5 (witness): fifteen candles closing 1, 2, ..., 15. -/
theorem calculateRSI_rising_all_100_witness :
    some 100 ∈ calculateRSI risingCandles 14 ∧
    ∀ r : ℚ, some r ∈ calculateRSI risingCandles 14 → r = 100 :=
  calculateRSI_rising_all_100 risingCandles (by norm_num [risingCandles])
    (by norm_num [risingCandles, mkCandle, List.chain'_cons])

/- Helper lemmas for the candle aggregator. -/

theorem updateFirstMatch_length (bucket : ℕ) (price : ℚ) :
    ∀ candles, (updateFirstMatch bucket price candles).length = candles.length
  | [] => rfl
  | c :: cs => by
    unfold updateFirstMatch
    split
    · simp
    · simp [updateFirstMatch_length bucket price cs]

/-- Creating the first candle of a series (cap at least 1). -/
theorem updateIntervalCandles_nil (maxC dur : ℕ) (hmax : 1 ≤ maxC) (p : ℚ) (t : ℕ) :
    updateIntervalCandles maxC dur p t [] = [freshCandle (bucketStart t dur) p] := by
  simp only [updateIntervalCandles, List.any_nil, Bool.false_eq_true, if_false,
    List.nil_append, List.length_singleton]
  rw [if_neg (by omega)]

/-- Ingesting observations that all land in the bucket of the single
existing candle keeps updating that candle in place. -/
theorem ingest_same_bucket (maxC dur b : ℕ) :
    ∀ (obs : List (ℚ × ℕ)) (c : OHLCCandle), c.timestamp = b →
      (∀ q ∈ obs, bucketStart q.2 dur = b) →
      ingestObservations maxC dur obs [c] =
        [{ c with high := (obs.map Prod.fst).foldl max c.high,
                  low := (obs.map Prod.fst).foldl min c.low,
                  close := (obs.map Prod.fst).getLastD c.close }]
  | [], c, _, _ => by simp [ingestObservations]
  | q :: obs, c, hc, hsame => by
    have hq : bucketStart q.2 dur = b := hsame q (List.mem_cons_self _ _)
    have hstep : updateIntervalCandles maxC dur q.1 q.2 [c] =
        [{ c with high := max c.high q.1, low := min c.low q.1, close := q.1 }] := by
      unfold updateIntervalCandles
      rw [hq, if_pos (by simp [hc])]
      unfold updateFirstMatch
      rw [if_pos hc]
    have ih := ingest_same_bucket maxC dur b obs
      { c with high := max c.high q.1, low := min c.low q.1, close := q.1 }
      hc (fun r hr => hsame r (List.mem_cons_of_mem _ hr))
    calc ingestObservations maxC dur (q :: obs) [c]
        = ingestObservations maxC dur obs (updateIntervalCandles maxC dur q.1 q.2 [c]) := rfl
      _ = _ := by
          rw [hstep, ih]
          dsimp only
          simp only [List.map_cons, List.foldl_cons, List.getLastD_cons]

/-- Claim C6: a non-empty sequence of observations all falling in the same
bucket, ingested in order into an empty series (cap at least 1), produces
exactly one candle whose open is the first price (never modified
afterwards), close the last price, high the maximum and low the minimum of
the prices. -/
theorem sameBucket_single_candle (maxC dur : ℕ) (hmax : 1 ≤ maxC)
    (p : ℚ) (t : ℕ) (rest : List (ℚ × ℕ))
    (hsame : ∀ q ∈ rest, bucketStart q.2 dur = bucketStart t dur) :
    ingestObservations maxC dur ((p, t) :: rest) [] =
      [{ timestamp := bucketStart t dur,
         open_ := p,
         high := (rest.map Prod.fst).foldl max p,
         low := (rest.map Prod.fst).foldl min p,
         close := (rest.map Prod.fst).getLastD p,
         volume := some 0 }] := by
  have h0 : ingestObservations maxC dur ((p, t) :: rest) [] =
      ingestObservations maxC dur rest [freshCandle (bucketStart t dur) p] := by
    show ingestObservations maxC dur rest (updateIntervalCandles maxC dur p t []) = _
    rw [updateIntervalCandles_nil maxC dur hmax]
  rw [h0, ingest_same_bucket maxC dur (bucketStart t dur) rest
    (freshCandle (bucketStart t dur) p) rfl hsame]
  rfl

/-- Claim C6 (witness): prices 5, 7, 6 at times 10ms, 20ms, 30ms in the
one-minute bucket 0 of an empty series. -/
theorem sameBucket_single_candle_witness :
    ingestObservations 1000 60000 [(5, 10), (7, 20), (6, 30)] [] =
      [{ timestamp := bucketStart 10 60000,
         open_ := 5,
         high := (([(7, 20), (6, 30)] : List (ℚ × ℕ)).map Prod.fst).foldl max 5,
         low := (([(7, 20), (6, 30)] : List (ℚ × ℕ)).map Prod.fst).foldl min 5,
         close := (([(7, 20), (6, 30)] : List (ℚ × ℕ)).map Prod.fst).getLastD 5,
         volume := some 0 }] :=
  sameBucket_single_candle 1000 60000 (by norm_num) 5 10 [(7, 20), (6, 30)] (by decide)

/- Cap invariant helpers. -/

theorem updateIntervalCandles_length_le (maxC dur : ℕ) (p : ℚ) (t : ℕ)
    (candles : List OHLCCandle) (h : candles.length ≤ maxC) :
    (updateIntervalCandles maxC dur p t candles).length ≤ maxC := by
  simp only [updateIntervalCandles]
  split
  · rw [updateFirstMatch_length]
    exact h
  · split
    · rename_i hlen
      simp only [List.length_drop, List.length_append, List.length_singleton]
      omega
    · rename_i hlen
      simp only [List.length_append, List.length_singleton] at hlen ⊢
      omega

theorem ingestObservations_length_le (maxC dur : ℕ) (obs : List (ℚ × ℕ)) :
    ∀ candles, candles.length ≤ maxC →
      (ingestObservations maxC dur obs candles).length ≤ maxC := by
  induction obs with
  | nil => intro candles h; exact h
  | cons q rest ih =>
    intro candles h
    exact ih _ (updateIntervalCandles_length_le maxC dur q.1 q.2 candles h)

theorem updateIntervalCandles_evicts (maxC dur : ℕ) (p : ℚ) (t : ℕ)
    (c0 : OHLCCandle) (rest : List OHLCCandle)
    (hlen : (c0 :: rest).length = maxC)
    (hnew : ∀ c ∈ c0 :: rest, c.timestamp ≠ bucketStart t dur) :
    updateIntervalCandles maxC dur p t (c0 :: rest) =
      rest ++ [freshCandle (bucketStart t dur) p] := by
  have hany : ((c0 :: rest).any fun c => decide (c.timestamp = bucketStart t dur)) = false := by
    simp only [List.any_eq_false, decide_eq_true_eq]
    exact hnew
  unfold updateIntervalCandles
  rw [if_neg (by rw [hany]; simp)]
  dsimp only
  rw [if_pos (by simp only [List.length_append, List.length_singleton]; omega)]
  rfl

/-- Claim C7: (a) starting from an empty series, any ingestion sequence
keeps the series within the configured cap; (b) when a series sorted by
bucket start sits exactly at its cap and an observation opens a new
bucket, exactly the oldest candle — the one with the smallest bucket
start, at the head — is evicted, the remaining candles unchanged, and the
new candle appended. -/
theorem candleSeries_cap_and_eviction :
    (∀ (maxC dur : ℕ) (obs : List (ℚ × ℕ)),
      (ingestObservations maxC dur obs []).length ≤ maxC) ∧
    (∀ (maxC dur : ℕ) (p : ℚ) (t : ℕ) (c0 : OHLCCandle) (rest : List OHLCCandle),
      (c0 :: rest).length = maxC →
      List.Pairwise (fun a b : OHLCCandle => a.timestamp < b.timestamp) (c0 :: rest) →
      (∀ c ∈ c0 :: rest, c.timestamp ≠ bucketStart t dur) →
      updateIntervalCandles maxC dur p t (c0 :: rest) =
        rest ++ [freshCandle (bucketStart t dur) p] ∧
      ∀ c ∈ c0 :: rest, c0.timestamp ≤ c.timestamp) := by
  constructor
  · intro maxC dur obs
    exact ingestObservations_length_le maxC dur obs [] (by simp)
  · intro maxC dur p t c0 rest hlen hsorted hnew
    refine ⟨updateIntervalCandles_evicts maxC dur p t c0 rest hlen hnew, ?_⟩
    intro c hc
    rcases List.mem_cons.mp hc with rfl | hc
    · exact le_refl _
    · exact le_of_lt ((List.pairwise_cons.mp hsorted).1 c hc)

/-- Claim C7 (witness): cap 2, two one-minute candles, a third bucket
opens — the bucket-0 candle is evicted. -/
theorem candleSeries_cap_and_eviction_witness :
    (ingestObservations 2 60000 [(1, 0), (2, 60000), (3, 120000)] []).length ≤ 2 ∧
    (updateIntervalCandles 2 60000 3 120000 twoCandles =
      [mkCandle 60000 2] ++ [freshCandle (bucketStart 120000 60000) 3] ∧
      ∀ c ∈ twoCandles, (mkCandle 0 1).timestamp ≤ c.timestamp) :=
  ⟨candleSeries_cap_and_eviction.1 2 60000 _,
    candleSeries_cap_and_eviction.2 2 60000 3 120000 (mkCandle 0 1) [mkCandle 60000 2]
      (by decide) (by norm_num [List.pairwise_cons, mkCandle]) (by decide)⟩

/- Helper lemmas for the portfolio aggregator. -/

theorem retainedAnalyses_cons_ok (a : RSIAnalysisResult)
    (rest : List (Except String RSIAnalysisResult)) (minC : ℚ) :
    retainedAnalyses (.ok a :: rest) minC =
      if minC ≤ a.signal.confidence ∨ a.signal.action = .hold then
        a :: retainedAnalyses rest minC
      else retainedAnalyses rest minC := by
  simp [retainedAnalyses]

theorem countAction_append (l1 l2 : List RSIAnalysisResult) (act : SignalAction) :
    countAction (l1 ++ l2) act = countAction l1 act + countAction l2 act := by
  unfold countAction
  rw [List.filter_append, List.length_append]

theorem countAction_singleton (a : RSIAnalysisResult) (act : SignalAction) :
    countAction [a] act = if a.signal.action = act then 1 else 0 := by
  unfold countAction
  by_cases h : a.signal.action = act <;> simp [h]

theorem countCatAction_append (l1 l2 : List RSIAnalysisResult) (cat : AssetCategory)
    (act : SignalAction) :
    countCatAction (l1 ++ l2) cat act = countCatAction l1 cat act + countCatAction l2 cat act := by
  unfold countCatAction
  rw [List.filter_append, List.length_append]

theorem countCatAction_singleton (a : RSIAnalysisResult) (cat : AssetCategory)
    (act : SignalAction) :
    countCatAction [a] cat act =
      if a.category = cat ∧ a.signal.action = act then 1 else 0 := by
  unfold countCatAction
  by_cases h : a.category = cat ∧ a.signal.action = act <;> simp [h]

theorem updateSummary_totals (s : PortfolioSummary) (a : RSIAnalysisResult) :
    (updateSummary s a).totalBuySignals =
      s.totalBuySignals + (if a.signal.action = .buy then 1 else 0) ∧
    (updateSummary s a).totalSellSignals =
      s.totalSellSignals + (if a.signal.action = .sell then 1 else 0) ∧
    (updateSummary s a).totalHoldSignals =
      s.totalHoldSignals + (if a.signal.action = .hold then 1 else 0) := by
  unfold updateSummary
  cases ha : a.signal.action <;> simp [ha]

theorem updateSummary_byCategory (s : PortfolioSummary) (a : RSIAnalysisResult)
    (cat : AssetCategory) :
    (updateSummary s a).byCategory cat =
      if cat = a.category then bumpCategory (s.byCategory cat) a.signal.action
      else s.byCategory cat := by
  unfold updateSummary
  cases ha : a.signal.action <;> simp [ha]

theorem stepPortfolio_good (minC : ℚ) (st : PortfolioSignals)
    (r : Except String RSIAnalysisResult) (h : goodState st) :
    goodState (stepPortfolio minC st r) := by
  cases r with
  | error e => exact h
  | ok a =>
    show goodState (if minC ≤ a.signal.confidence ∨ a.signal.action = .hold then
      { signals := st.signals ++ [a], summary := updateSummary st.summary a } else st)
    split
    · obtain ⟨hb, hs, hh, hcat⟩ := h
      obtain ⟨ub, us, uh⟩ := updateSummary_totals st.summary a
      refine ⟨?_, ?_, ?_, ?_⟩
      · simp only [ub, hb, countAction_append, countAction_singleton]
      · simp only [us, hs, countAction_append, countAction_singleton]
      · simp only [uh, hh, countAction_append, countAction_singleton]
      · intro cat
        show (updateSummary st.summary a).byCategory cat = _
        rw [updateSummary_byCategory, hcat cat]
        by_cases hc : cat = a.category
        · rw [if_pos hc]
          cases ha : a.signal.action <;>
            simp [bumpCategory, countCatAction_append, countCatAction_singleton,
              hc.symm, ha]
        · rw [if_neg hc]
          have hc2 : ¬ a.category = cat := fun hx => hc hx.symm
          simp [countCatAction_append, countCatAction_singleton, hc2]
    · exact h

theorem foldPortfolio_good (minC : ℚ) (analyses : List (Except String RSIAnalysisResult)) :
    ∀ st : PortfolioSignals, goodState st →
      goodState (analyses.foldl (stepPortfolio minC) st) := by
  induction analyses with
  | nil => intro st h; exact h
  | cons r rest ih =>
    intro st h
    exact ih _ (stepPortfolio_good minC st r h)

theorem foldPortfolio_signals (minC : ℚ) :
    ∀ (analyses : List (Except String RSIAnalysisResult)) (st : PortfolioSignals),
      (analyses.foldl (stepPortfolio minC) st).signals =
        st.signals ++ retainedAnalyses analyses minC
  | [], st => by simp [retainedAnalyses]
  | .error e :: rest, st => by
    have ih := foldPortfolio_signals minC rest st
    simpa [retainedAnalyses] using ih
  | .ok a :: rest, st => by
    by_cases hcond : minC ≤ a.signal.confidence ∨ a.signal.action = .hold
    · have hstep : stepPortfolio minC st (.ok a) =
          { signals := st.signals ++ [a], summary := updateSummary st.summary a } := by
        show (if minC ≤ a.signal.confidence ∨ a.signal.action = .hold then
          ({ signals := st.signals ++ [a], summary := updateSummary st.summary a } :
            PortfolioSignals) else st) = _
        rw [if_pos hcond]
      have ih := foldPortfolio_signals minC rest
        { signals := st.signals ++ [a], summary := updateSummary st.summary a }
      have hret : retainedAnalyses (.ok a :: rest) minC =
          a :: retainedAnalyses rest minC := by
        rw [retainedAnalyses_cons_ok, if_pos hcond]
      calc (List.foldl (stepPortfolio minC) st (.ok a :: rest)).signals
          = (List.foldl (stepPortfolio minC) (stepPortfolio minC st (.ok a)) rest).signals := rfl
        _ = st.signals ++ retainedAnalyses (.ok a :: rest) minC := by
            rw [hstep, ih, hret]
            simp
    · have hstep : stepPortfolio minC st (.ok a) = st := by
        show (if minC ≤ a.signal.confidence ∨ a.signal.action = .hold then
          ({ signals := st.signals ++ [a], summary := updateSummary st.summary a } :
            PortfolioSignals) else st) = _
        rw [if_neg hcond]
      have ih := foldPortfolio_signals minC rest st
      have hret : retainedAnalyses (.ok a :: rest) minC = retainedAnalyses rest minC := by
        rw [retainedAnalyses_cons_ok, if_neg hcond]
      calc (List.foldl (stepPortfolio minC) st (.ok a :: rest)).signals
          = (List.foldl (stepPortfolio minC) (stepPortfolio minC st (.ok a)) rest).signals := rfl
        _ = st.signals ++ retainedAnalyses (.ok a :: rest) minC := by rw [hstep, ih, hret]

/-- Claim C8: `getPortfolioSignals` is total over per-asset outcomes (a
failed analysis never aborts the batch): failed analyses are excluded, a
successful analysis is retained if and only if its confidence reaches
`minConfidence` or its action is HOLD, and every summary counter — by
action and by category — counts exactly the retained results. -/
theorem getPortfolioSignals_correct (analyses : List (Except String RSIAnalysisResult))
    (minC : ℚ) :
    (getPortfolioSignals analyses minC).signals = retainedAnalyses analyses minC ∧
    (getPortfolioSignals analyses minC).summary.totalBuySignals =
      countAction (getPortfolioSignals analyses minC).signals .buy ∧
    (getPortfolioSignals analyses minC).summary.totalSellSignals =
      countAction (getPortfolioSignals analyses minC).signals .sell ∧
    (getPortfolioSignals analyses minC).summary.totalHoldSignals =
      countAction (getPortfolioSignals analyses minC).signals .hold ∧
    ∀ cat, (getPortfolioSignals analyses minC).summary.byCategory cat =
      ⟨countCatAction (getPortfolioSignals analyses minC).signals cat .buy,
       countCatAction (getPortfolioSignals analyses minC).signals cat .sell,
       countCatAction (getPortfolioSignals analyses minC).signals cat .hold⟩ := by
  have hsig : (getPortfolioSignals analyses minC).signals = retainedAnalyses analyses minC := by
    have := foldPortfolio_signals minC analyses emptyPortfolio
    simpa [getPortfolioSignals, emptyPortfolio] using this
  have hgood : goodState (getPortfolioSignals analyses minC) := by
    apply foldPortfolio_good
    refine ⟨rfl, rfl, rfl, fun cat => rfl⟩
  exact ⟨hsig, hgood.1, hgood.2.1, hgood.2.2.1, hgood.2.2.2⟩

/-- Claim C9: for a payment-gated tool with a configured price, a request
whose verification is not granted gets the distinct 402 payment-required
response carrying the price and description of the tool — whatever the handler
is, i.e. the underlying computation is never executed and cannot influence
the response — and a granted verification executes the handler. -/
theorem gatedTool_payment_gate {α β : Type} (toolName : String) (price : ToolPrice)
    (hfee : TOOL_PRICING toolName = some price)
    (vr : PaymentVerificationResult) (handler : α → β) (args : α) :
    (vr.verified = false →
      (∀ h2 : α → β, gatedToolHandler toolName true (.ok vr) h2 args =
        .paymentRequired toolName (jsOrString vr.error "Payment Required")
          vr.requirements (some price)) ∧
      ∀ b : β, (GatedOutcome.paymentRequired toolName (jsOrString vr.error "Payment Required")
          vr.requirements (some price) : GatedOutcome β) ≠ .handlerRun b) ∧
    (vr.verified = true →
      gatedToolHandler toolName true (.ok vr) handler args = .handlerRun (handler args)) := by
  constructor
  · intro hv
    constructor
    · intro h2
      show (if vr.verified = false then
          GatedOutcome.paymentRequired toolName (jsOrString vr.error "Payment Required")
            vr.requirements (TOOL_PRICING toolName)
        else GatedOutcome.handlerRun (h2 args)) = _
      rw [if_pos hv, hfee]
    · intro b h
      exact GatedOutcome.noConfusion h
  · intro hv
    show (if vr.verified = false then
        GatedOutcome.paymentRequired toolName (jsOrString vr.error "Payment Required")
          vr.requirements (TOOL_PRICING toolName)
      else GatedOutcome.handlerRun (handler args)) = _
    rw [if_neg (by simp [hv])]

/-- Claim C9 (witness): the `get-rsi-analysis` tool, a verification result
with `verified: false` and no error message, and a concrete handler. -/
theorem gatedTool_payment_gate_witness :
    gatedToolHandler "get-rsi-analysis" true
        (.ok (⟨false, none, none⟩ : PaymentVerificationResult)) (fun n : ℕ => n + 1) 5 =
      .paymentRequired "get-rsi-analysis"
        (jsOrString (none : Option String) "Payment Required") none
        (some ⟨50000, "RSI trading signal analysis"⟩) :=
  ((gatedTool_payment_gate "get-rsi-analysis" ⟨50000, "RSI trading signal analysis"⟩ rfl
    ⟨false, none, none⟩ (fun n : ℕ => n + 1) 5).1 rfl).1 (fun n => n + 1)

/-- Claim C3 (counterexample): a state holding one accumulated WBTC 1-hour
candle, an empty cache and a failing live feed: the stored series is
non-empty, yet `getOHLCData` does not return it — the upstream fetch
failure of the unconditional price refresh propagates to the caller. -/
theorem getOHLCData_feed_down_counterexample :
    demoStateNE.ohlcStorage wbtcMint TimeInterval.i1h ≠ [] ∧
    getOHLCData 5000 1000 demoStateNE 0 none "WBTC" TimeInterval.i1h 10 =
      .error (.upstreamFetch "WBTC") := by
  constructor
  · decide
  · have hfind : findAsset "WBTC" = some wbtcAsset := by decide
    have hfetch : getAssetPrice 5000 1000 demoStateNE 0 none wbtcAsset =
        .error (.upstreamFetch "WBTC") := rfl
    simp only [getOHLCData, hfind, hfetch]

/-- Claim C3 (amended): `getOHLCData` first refreshes the price of the asset:
a refresh failure (upstream fetch error) propagates unchanged even when
stored candles exist.  When the refresh succeeds, the operation fails with
the insufficient-data error exactly when the stored series for the
(asset, interval) is empty, and otherwise returns the most recent `count`
candles (fewer if less history exists, `count ≥ 1`). -/
theorem getOHLCData_characterization (cacheTTL maxCandles : ℕ) (st : PriceState)
    (now : ℕ) (feed : Option FeedQuote) (assetId : String) (interval : TimeInterval)
    (count : ℕ) (asset : SolanaAsset)
    (hfind : findAsset assetId = some asset) (hcount : 1 ≤ count) :
    (∀ e, getAssetPrice cacheTTL maxCandles st now feed asset = .error e →
      getOHLCData cacheTTL maxCandles st now feed assetId interval count = .error e) ∧
    (∀ (pd : PriceData) (st2 : PriceState),
      getAssetPrice cacheTTL maxCandles st now feed asset = .ok (pd, st2) →
      (st2.ohlcStorage asset.mintAddress interval = [] →
        getOHLCData cacheTTL maxCandles st now feed assetId interval count =
          .error (.insufficientData asset.symbol)) ∧
      (st2.ohlcStorage asset.mintAddress interval ≠ [] →
        getOHLCData cacheTTL maxCandles st now feed assetId interval count =
          .ok ((st2.ohlcStorage asset.mintAddress interval).drop
            ((st2.ohlcStorage asset.mintAddress interval).length - count), st2))) := by
  constructor
  · intro e he
    simp only [getOHLCData, hfind, he]
  · intro pd st2 hok
    have hbase : getOHLCData cacheTTL maxCandles st now feed assetId interval count =
        (if (st2.ohlcStorage asset.mintAddress interval).isEmpty then
          .error (.insufficientData asset.symbol)
        else .ok (sliceLast (st2.ohlcStorage asset.mintAddress interval) count, st2)) := by
      simp only [getOHLCData, hfind, hok]
    constructor
    · intro hemp
      rw [hbase, if_pos (by simp [hemp])]
    · intro hne
      rw [hbase, if_neg (by simp [hne])]
      unfold sliceLast
      rw [if_neg (by omega)]

/-- Claim C3 (witness): empty store, usable feed quote — the refresh
succeeds, populates the series, and the freshly stored candles come
back. -/
theorem getOHLCData_characterization_witness :
    getOHLCData 5000 1000 demoStateEmpty 0 (some demoQuote) "WBTC" TimeInterval.i1h 10 =
      .ok ((demoSt2.ohlcStorage wbtcAsset.mintAddress TimeInterval.i1h).drop
        ((demoSt2.ohlcStorage wbtcAsset.mintAddress TimeInterval.i1h).length - 10),
        demoSt2) :=
  (((getOHLCData_characterization 5000 1000 demoStateEmpty 0 (some demoQuote) "WBTC"
      TimeInterval.i1h 10 wbtcAsset (by decide) (by norm_num)).2) demoPD demoSt2 rfl).2
    (by decide)

end Malva
